import Mathlib

/-
Verification of the Mote firmware audio engine and voice-session state
machine, shallowly embedded from src/firmware/src/audio.cpp and
src/firmware/src/voice_client.cpp.

Modelling conventions:
  * The ring buffer's shared globals (ringBufferHead, ringBufferTail,
    audioRingBuffer, bufferPlaying, streamFinished, and the playback task's
    static underrunCount) form the record AudioState.  Buffer contents are a
    total function Nat into Int (int16_t samples); cursors are Nat.
  * FreeRTOS mutex acquisition (xSemaphoreTake with a bounded timeout) is an
    explicit Bool parameter lockOk: true models the take succeeding within
    the timeout, false models the timeout path.
  * Hardware side effects (i2s_zero_dma_buffer, i2s_write, vTaskDelay,
    i2s stop/start in restartMicrophone, sending voice.start) are recorded
    as a list of HwAction values returned alongside the new state.
  * One iteration of the audioPlaybackTask while-loop is the function
    audioPlaybackStep; the volume/gain globals are passed as parameters.
-/

namespace Mote

/-- Constant from audio.cpp: AUDIO_RING_BUFFER_SIZE = 16000 * 60 samples. -/
def AUDIO_RING_BUFFER_SIZE : Nat := 16000 * 60

/-- Constant from audio.cpp: AUDIO_PLAYBACK_CHUNK = 2048 samples (128 ms). -/
def AUDIO_PLAYBACK_CHUNK : Nat := 2048

/-- Constant from audio.cpp: AUDIO_START_THRESHOLD = 16000 samples (1 s). -/
def AUDIO_START_THRESHOLD : Nat := 16000

/-- The ring-buffer/playback globals of audio.cpp. -/
structure AudioState where
  ringBufferHead : Nat
  ringBufferTail : Nat
  ringBuffer : Nat → Int
  bufferPlaying : Bool
  streamFinished : Bool
  underrunCount : Nat

/-- Hardware / transport side effects emitted by the embedded operations. -/
inductive HwAction where
  | zeroSpeaker
  | zeroMic
  | restartMic
  | delayMs (ms : Nat)
  | writeSpeaker (samples : List Int)
  | sendVoiceStart
deriving DecidableEq, Repr

/-- audio.cpp getBufferedSamples: occupancy from the two cursors. -/
def getBufferedSamples (s : AudioState) : Nat :=
  if s.ringBufferTail ≤ s.ringBufferHead then
    s.ringBufferHead - s.ringBufferTail
  else
    AUDIO_RING_BUFFER_SIZE - s.ringBufferTail + s.ringBufferHead

/-- audio.cpp getBufferFreeSpace: capacity minus occupancy minus one. -/
def getBufferFreeSpace (s : AudioState) : Nat :=
  AUDIO_RING_BUFFER_SIZE - getBufferedSamples s - 1

/-- audio.cpp applyVolume, per sample: scale by volume and software gain in
int32 arithmetic (the C `/` truncates toward zero, hence Int.tdiv) and clamp
to the 16-bit signed range. -/
def applyVolumeSample (currentVolume softwareGain : Nat) (x : Int) : Int :=
  let scaled := Int.tdiv (x * (currentVolume : Int) * (softwareGain : Int)) 10000
  if scaled > 32767 then 32767
  else if scaled < -32768 then -32768
  else scaled

/-- audio.cpp applyVolume over a whole chunk. -/
def applyVolume (currentVolume softwareGain : Nat) (samples : List Int) : List Int :=
  samples.map (applyVolumeSample currentVolume softwareGain)

/-- audio.cpp setVolume: the parameter is a uint8_t (hence the mod 256);
values above 100 are clamped to 100.  Returns the new currentVolume. -/
def setVolume (volume : Nat) : Nat :=
  let v := volume % 256
  if v > 100 then 100 else v

/-- audio.cpp setGain: the parameter is a uint16_t (hence the mod 65536);
clamped to [100, 400] (1.0x to 4.0x).  Returns the new softwareGain. -/
def setGain (gain : Nat) : Nat :=
  let g := gain % 65536
  let g1 := if g < 100 then 100 else g
  if g1 > 400 then 400 else g1

/-- The write loop of audio.cpp queueAudioData: store each sample at the head
cursor and advance the head modulo the capacity. -/
def writeSamples : List Int → AudioState → AudioState
  | [], s => s
  | x :: xs, s =>
      writeSamples xs
        { s with
          ringBuffer := fun j => if j = s.ringBufferHead then x else s.ringBuffer j,
          ringBufferHead := (s.ringBufferHead + 1) % AUDIO_RING_BUFFER_SIZE }

/-- audio.cpp queueAudioData.  `initialized` models the
`audioRingBuffer == nullptr || bufferMutex == nullptr` guard being passed;
`lockOk` models xSemaphoreTake(bufferMutex, 50 ms) succeeding.  Returns the
accepted sample count and the new buffer state. -/
def queueAudioData (initialized lockOk : Bool) (samples : List Int) (s : AudioState) :
    Nat × AudioState :=
  if initialized = false then (0, s)
  else if lockOk = false then (0, s)
  else
    let freeSpace := getBufferFreeSpace s
    let toWrite := min samples.length freeSpace
    (toWrite, writeSamples (samples.take toWrite) s)

/-- The read loop of the playback task: dequeue n samples from the tail
cursor, advancing it modulo the capacity. -/
def readChunk : Nat → AudioState → List Int × AudioState
  | 0, s => ([], s)
  | n + 1, s =>
      let x := s.ringBuffer s.ringBufferTail
      let r := readChunk n
        { s with ringBufferTail := (s.ringBufferTail + 1) % AUDIO_RING_BUFFER_SIZE }
      (x :: r.1, r.2)

/-- The body of the audioPlaybackTask loop after the start-gate (audio.cpp
lines 100-156): empty-buffer handling (normal completion, underrun wait,
underrun-timeout abort) or dequeue of up to AUDIO_PLAYBACK_CHUNK samples,
volume scaling, and the i2s write. -/
def playBody (lockOk : Bool) (currentVolume softwareGain : Nat) (s : AudioState) :
    AudioState × List HwAction :=
  if getBufferedSamples s = 0 then
    if s.streamFinished = true then
      ({ s with bufferPlaying := false, streamFinished := false, underrunCount := 0 },
       [HwAction.zeroSpeaker])
    else
      if 100 < s.underrunCount + 1 then
        ({ s with bufferPlaying := false, streamFinished := false, underrunCount := 0 },
         [HwAction.delayMs 50, HwAction.zeroSpeaker])
      else
        ({ s with underrunCount := s.underrunCount + 1 }, [HwAction.delayMs 50])
  else
    let s1 := { s with underrunCount := 0 }
    let toRead := min (getBufferedSamples s) AUDIO_PLAYBACK_CHUNK
    if lockOk = true then
      let r := readChunk toRead s1
      (r.2, [HwAction.writeSpeaker (applyVolume currentVolume softwareGain r.1)])
    else
      (s1, [HwAction.delayMs 1])

/-- One iteration of audio.cpp audioPlaybackTask: the bufferReady guard, the
start-threshold gate (start when occupancy reaches AUDIO_START_THRESHOLD and
the stream is not finished, or when the stream is finished with a nonempty
buffer), then the play body. -/
def audioPlaybackStep (bufferReady lockOk : Bool) (currentVolume softwareGain : Nat)
    (s : AudioState) : AudioState × List HwAction :=
  if bufferReady = false then (s, [HwAction.delayMs 50])
  else if s.bufferPlaying = false then
    if AUDIO_START_THRESHOLD ≤ getBufferedSamples s ∧ s.streamFinished = false then
      playBody lockOk currentVolume softwareGain { s with bufferPlaying := true }
    else if s.streamFinished = true ∧ 0 < getBufferedSamples s then
      playBody lockOk currentVolume softwareGain { s with bufferPlaying := true }
    else
      (s, [HwAction.delayMs 10])
  else
    playBody lockOk currentVolume softwareGain s

/-- audio.cpp finishAudioStream: mark the stream finished. -/
def finishAudioStream (s : AudioState) : AudioState :=
  { s with streamFinished := true }

/-- audio.cpp clearAudioBuffer: under the mutex reset both cursors and clear
both flags, then zero the speaker and microphone DMA buffers.  If the 100 ms
mutex take fails the cursors and flags are left as they were, but the DMA
buffers are still zeroed. -/
def clearAudioBuffer (lockOk : Bool) (s : AudioState) : AudioState × List HwAction :=
  if lockOk = true then
    ({ s with ringBufferHead := 0, ringBufferTail := 0,
              bufferPlaying := false, streamFinished := false },
     [HwAction.zeroSpeaker, HwAction.zeroMic])
  else
    (s, [HwAction.zeroSpeaker, HwAction.zeroMic])

/-- audio.cpp initRingBuffer: cursors zero, flags clear, buffer zero-filled. -/
def initRingBufferState : AudioState :=
  { ringBufferHead := 0, ringBufferTail := 0, ringBuffer := fun _ => 0,
    bufferPlaying := false, streamFinished := false, underrunCount := 0 }

/-- Cursor sanity: both cursors are below the capacity.  Established by
initRingBuffer and preserved by every operation. -/
def BufInv (s : AudioState) : Prop :=
  s.ringBufferHead < AUDIO_RING_BUFFER_SIZE ∧ s.ringBufferTail < AUDIO_RING_BUFFER_SIZE

/-- VoiceState enum of voice_client.h. -/
inductive VoiceState where
  | VOICE_DISCONNECTED
  | VOICE_IDLE
  | VOICE_LISTENING
  | VOICE_PROCESSING
  | VOICE_SPEAKING
deriving DecidableEq, Repr

/-- The statics of voice_client.cpp visible to the claims: the state machine
value, the wsConnected flag, and the audio globals they act on. -/
structure SysState where
  currentVoiceState : VoiceState
  wsConnected : Bool
  audio : AudioState

/-- A parsed server control message, as classified by the manual type-field
parsing in voice_client.cpp handleServerMessage.  parseFail is the early
return when the type field cannot be extracted; unknown is any unrecognized
type string. -/
inductive ServerMsg where
  | listening
  | transcription (text : String)
  | processing
  | response (text : String)
  | done
  | interrupt
  | error (err : String)
  | iotRequest
  | unknown
  | parseFail
deriving DecidableEq, Repr

/-- voice_client.cpp setVoiceState (callback notification not modelled). -/
def setVoiceState (newState : VoiceState) (s : SysState) : SysState :=
  { s with currentVoiceState := newState }

/-- voice_client.cpp handleServerMessage: dispatch on the message type. -/
def handleServerMessage (m : ServerMsg) (s : SysState) : SysState × List HwAction :=
  match m with
  | ServerMsg.parseFail => (s, [])
  | ServerMsg.listening => (setVoiceState VoiceState.VOICE_LISTENING s, [])
  | ServerMsg.transcription _ => (s, [])
  | ServerMsg.processing => (setVoiceState VoiceState.VOICE_PROCESSING s, [])
  | ServerMsg.response _ => (setVoiceState VoiceState.VOICE_SPEAKING s, [])
  | ServerMsg.done =>
      let a := finishAudioStream s.audio
      (setVoiceState VoiceState.VOICE_IDLE { s with audio := a }, [HwAction.restartMic])
  | ServerMsg.interrupt =>
      let r := clearAudioBuffer true s.audio
      (setVoiceState VoiceState.VOICE_LISTENING { s with audio := r.1 },
       r.2 ++ [HwAction.restartMic])
  | ServerMsg.error _ => (setVoiceState VoiceState.VOICE_IDLE s, [])
  | ServerMsg.iotRequest => (s, [])
  | ServerMsg.unknown => (s, [])

/-- WebSocket events as dispatched by voice_client.cpp webSocketEvent. -/
inductive WsEvent where
  | disconnected
  | connected
  | text (m : ServerMsg)
  | binary (len : Nat)
  | wsError
  | ping
  | pong
deriving DecidableEq, Repr

/-- voice_client.cpp webSocketEvent.  On CONNECTED the voice.start message is
sent (recorded as an action) and the state becomes IDLE; on DISCONNECTED the
state becomes DISCONNECTED.  Binary frames go to the audio callback, whose
wiring is outside voice_client.cpp. -/
def webSocketEvent (e : WsEvent) (s : SysState) : SysState × List HwAction :=
  match e with
  | WsEvent.disconnected =>
      (setVoiceState VoiceState.VOICE_DISCONNECTED { s with wsConnected := false }, [])
  | WsEvent.connected =>
      (setVoiceState VoiceState.VOICE_IDLE { s with wsConnected := true },
       [HwAction.sendVoiceStart])
  | WsEvent.text m => handleServerMessage m s
  | WsEvent.binary _ => (s, [])
  | WsEvent.wsError => (s, [])
  | WsEvent.ping => (s, [])
  | WsEvent.pong => (s, [])

/-- voice_client.cpp sendVoiceAudio.  First component: whether the samples
are transmitted (webSocket.sendBIN is invoked); second: the return value,
where sendOk models the result of sendBIN. -/
def sendVoiceAudio (s : SysState) (sendOk : Bool) : Bool × Bool :=
  if s.wsConnected = false then (false, false)
  else if s.currentVoiceState ≠ VoiceState.VOICE_IDLE ∧
          s.currentVoiceState ≠ VoiceState.VOICE_LISTENING ∧
          s.currentVoiceState ≠ VoiceState.VOICE_SPEAKING then
    (false, false)
  else
    (true, sendOk)

/-- Startup state of voice_client.cpp: disconnected, socket down. -/
def initialSysState : SysState :=
  { currentVoiceState := VoiceState.VOICE_DISCONNECTED, wsConnected := false,
    audio := initRingBufferState }

/-- Run a list of WebSocket events through webSocketEvent. -/
def runWsEvents (events : List WsEvent) (s : SysState) : SysState :=
  events.foldl (fun st e => (webSocketEvent e st).1) s

/-! Basic lemmas about the write and read loops. -/

theorem capacity_pos : 0 < AUDIO_RING_BUFFER_SIZE := by
  simp [AUDIO_RING_BUFFER_SIZE]

theorem writeSamples_tail (xs : List Int) (s : AudioState) :
    (writeSamples xs s).ringBufferTail = s.ringBufferTail := by
  induction xs generalizing s with
  | nil => rfl
  | cons x xs ih => simpa [writeSamples] using ih _

theorem writeSamples_bufferPlaying (xs : List Int) (s : AudioState) :
    (writeSamples xs s).bufferPlaying = s.bufferPlaying := by
  induction xs generalizing s with
  | nil => rfl
  | cons x xs ih => simpa [writeSamples] using ih _

theorem writeSamples_streamFinished (xs : List Int) (s : AudioState) :
    (writeSamples xs s).streamFinished = s.streamFinished := by
  induction xs generalizing s with
  | nil => rfl
  | cons x xs ih => simpa [writeSamples] using ih _

theorem writeSamples_underrunCount (xs : List Int) (s : AudioState) :
    (writeSamples xs s).underrunCount = s.underrunCount := by
  induction xs generalizing s with
  | nil => rfl
  | cons x xs ih => simpa [writeSamples] using ih _

theorem writeSamples_head (xs : List Int) (s : AudioState)
    (h : s.ringBufferHead < AUDIO_RING_BUFFER_SIZE) :
    (writeSamples xs s).ringBufferHead =
      (s.ringBufferHead + xs.length) % AUDIO_RING_BUFFER_SIZE := by
  induction xs generalizing s with
  | nil => simp [writeSamples, Nat.mod_eq_of_lt h]
  | cons x xs ih =>
      rw [writeSamples, ih _ (Nat.mod_lt _ capacity_pos)]
      simp only [List.length_cons, AUDIO_RING_BUFFER_SIZE]
      omega

theorem writeSamples_head_lt (xs : List Int) (s : AudioState)
    (h : s.ringBufferHead < AUDIO_RING_BUFFER_SIZE) :
    (writeSamples xs s).ringBufferHead < AUDIO_RING_BUFFER_SIZE := by
  rw [writeSamples_head xs s h]
  exact Nat.mod_lt _ capacity_pos

theorem writeSamples_untouched (xs : List Int) (s : AudioState)
    (h : s.ringBufferHead < AUDIO_RING_BUFFER_SIZE)
    (hlen : xs.length ≤ AUDIO_RING_BUFFER_SIZE) (j : Nat)
    (hout : ∀ i, i < xs.length → (s.ringBufferHead + i) % AUDIO_RING_BUFFER_SIZE ≠ j) :
    (writeSamples xs s).ringBuffer j = s.ringBuffer j := by
  induction xs generalizing s with
  | nil => rfl
  | cons x xs ih =>
      rw [writeSamples]
      rw [ih _ (Nat.mod_lt _ capacity_pos) (by simpa using Nat.le_of_succ_le hlen) ?hshift]
      case hshift =>
        intro i hi
        have := hout (i + 1) (by simpa using Nat.succ_lt_succ hi)
        simp only [AUDIO_RING_BUFFER_SIZE] at this ⊢
        omega
      have hj : s.ringBufferHead ≠ j := by
        have := hout 0 (by simp)
        simpa [Nat.mod_eq_of_lt h] using this
      simp [hj.symm]

theorem writeSamples_get (xs : List Int) (s : AudioState)
    (h : s.ringBufferHead < AUDIO_RING_BUFFER_SIZE)
    (hlen : xs.length ≤ AUDIO_RING_BUFFER_SIZE) :
    ∀ i, i < xs.length →
      (writeSamples xs s).ringBuffer ((s.ringBufferHead + i) % AUDIO_RING_BUFFER_SIZE) =
        xs.getD i 0 := by
  induction xs generalizing s with
  | nil => intro i hi; simp at hi
  | cons x xs ih =>
      intro i hi
      cases i with
      | zero =>
          rw [writeSamples]
          have hpos : (s.ringBufferHead + 0) % AUDIO_RING_BUFFER_SIZE = s.ringBufferHead := by
            simpa using Nat.mod_eq_of_lt h
          rw [hpos]
          rw [writeSamples_untouched xs _ (Nat.mod_lt _ capacity_pos)
            (by simpa using Nat.le_of_succ_le hlen) s.ringBufferHead ?hout]
          · simp
          case hout =>
            intro i hi2
            have hx : xs.length < AUDIO_RING_BUFFER_SIZE := by
              simp only [List.length_cons] at hlen; omega
            simp only [AUDIO_RING_BUFFER_SIZE] at hx ⊢
            omega
      | succ i =>
          rw [writeSamples]
          have hi2 : i < xs.length := by simpa using Nat.lt_of_succ_lt_succ hi
          have := ih { s with
              ringBuffer := fun j => if j = s.ringBufferHead then x else s.ringBuffer j,
              ringBufferHead := (s.ringBufferHead + 1) % AUDIO_RING_BUFFER_SIZE }
            (Nat.mod_lt _ capacity_pos) (by simpa using Nat.le_of_succ_le hlen) i hi2
          simp only at this
          have harith : ((s.ringBufferHead + 1) % AUDIO_RING_BUFFER_SIZE + i) %
              AUDIO_RING_BUFFER_SIZE =
              (s.ringBufferHead + (i + 1)) % AUDIO_RING_BUFFER_SIZE := by
            simp only [AUDIO_RING_BUFFER_SIZE]
            omega
          rw [harith] at this
          rw [this]
          rfl

theorem readChunk_head (n : Nat) (s : AudioState) :
    (readChunk n s).2.ringBufferHead = s.ringBufferHead := by
  induction n generalizing s with
  | zero => rfl
  | succ n ih => simpa [readChunk] using ih _

theorem readChunk_ringBuffer (n : Nat) (s : AudioState) :
    (readChunk n s).2.ringBuffer = s.ringBuffer := by
  induction n generalizing s with
  | zero => rfl
  | succ n ih => simpa [readChunk] using ih _

theorem readChunk_bufferPlaying (n : Nat) (s : AudioState) :
    (readChunk n s).2.bufferPlaying = s.bufferPlaying := by
  induction n generalizing s with
  | zero => rfl
  | succ n ih => simpa [readChunk] using ih _

theorem readChunk_streamFinished (n : Nat) (s : AudioState) :
    (readChunk n s).2.streamFinished = s.streamFinished := by
  induction n generalizing s with
  | zero => rfl
  | succ n ih => simpa [readChunk] using ih _

theorem readChunk_underrunCount (n : Nat) (s : AudioState) :
    (readChunk n s).2.underrunCount = s.underrunCount := by
  induction n generalizing s with
  | zero => rfl
  | succ n ih => simpa [readChunk] using ih _

theorem readChunk_tail (n : Nat) (s : AudioState)
    (h : s.ringBufferTail < AUDIO_RING_BUFFER_SIZE) :
    (readChunk n s).2.ringBufferTail = (s.ringBufferTail + n) % AUDIO_RING_BUFFER_SIZE := by
  induction n generalizing s with
  | zero => simp [readChunk, Nat.mod_eq_of_lt h]
  | succ n ih =>
      rw [readChunk]
      simp only
      rw [ih _ (Nat.mod_lt _ capacity_pos)]
      simp only [AUDIO_RING_BUFFER_SIZE]
      omega

theorem readChunk_tail_lt (n : Nat) (s : AudioState)
    (h : s.ringBufferTail < AUDIO_RING_BUFFER_SIZE) :
    (readChunk n s).2.ringBufferTail < AUDIO_RING_BUFFER_SIZE := by
  rw [readChunk_tail n s h]
  exact Nat.mod_lt _ capacity_pos

/-! Occupancy lemmas. -/

theorem getBufferedSamples_le (s : AudioState) (h : BufInv s) :
    getBufferedSamples s ≤ AUDIO_RING_BUFFER_SIZE - 1 := by
  obtain ⟨h1, h2⟩ := h
  unfold getBufferedSamples
  split <;> (simp only [AUDIO_RING_BUFFER_SIZE] at *; omega)

theorem getBufferedSamples_after_read (s : AudioState) (h : BufInv s) (n : Nat)
    (hn : n ≤ getBufferedSamples s) :
    getBufferedSamples (readChunk n s).2 = getBufferedSamples s - n := by
  obtain ⟨h1, h2⟩ := h
  unfold getBufferedSamples at hn ⊢
  rw [readChunk_head, readChunk_tail n s h2]
  simp only [AUDIO_RING_BUFFER_SIZE] at *
  split at hn <;> split <;> omega

theorem getBufferedSamples_after_write (xs : List Int) (s : AudioState) (h : BufInv s)
    (hn : xs.length ≤ getBufferFreeSpace s) :
    getBufferedSamples (writeSamples xs s) = getBufferedSamples s + xs.length := by
  obtain ⟨h1, h2⟩ := h
  unfold getBufferFreeSpace getBufferedSamples at hn
  unfold getBufferedSamples
  rw [writeSamples_head xs s h1, writeSamples_tail]
  simp only [AUDIO_RING_BUFFER_SIZE] at *
  split at hn <;> split <;> omega

/-! Invariant preservation. -/

theorem queueAudioData_inv (initialized lockOk : Bool) (xs : List Int) (s : AudioState)
    (h : BufInv s) : BufInv (queueAudioData initialized lockOk xs s).2 := by
  unfold queueAudioData
  split
  · exact h
  · split
    · exact h
    · refine ⟨writeSamples_head_lt _ _ h.1, ?_⟩
      rw [writeSamples_tail]
      exact h.2

theorem playBody_inv (lockOk : Bool) (v g : Nat) (s : AudioState)
    (h : BufInv s) : BufInv (playBody lockOk v g s).1 := by
  unfold playBody
  split
  · split
    · exact h
    · split
      · exact h
      · exact h
  · split
    · exact ⟨by simpa [readChunk_head] using h.1, readChunk_tail_lt _ _ h.2⟩
    · exact h

theorem audioPlaybackStep_inv (bufferReady lockOk : Bool) (v g : Nat) (s : AudioState)
    (h : BufInv s) : BufInv (audioPlaybackStep bufferReady lockOk v g s).1 := by
  unfold audioPlaybackStep
  split
  · exact h
  · split
    · split
      · exact playBody_inv _ _ _ _ h
      · split
        · exact playBody_inv _ _ _ _ h
        · exact h
    · exact playBody_inv _ _ _ _ h

/-- A produce (queueAudioData) or drain (one playback-task iteration)
operation, with its lock/readiness outcomes and the volume/gain globals in
force during the drain. -/
inductive RingOp where
  | produce (initialized lockOk : Bool) (samples : List Int)
  | drain (bufferReady lockOk : Bool) (currentVolume softwareGain : Nat)

/-- Apply one RingOp to the buffer state. -/
def applyRingOp (op : RingOp) (s : AudioState) : AudioState :=
  match op with
  | RingOp.produce initialized lockOk xs => (queueAudioData initialized lockOk xs s).2
  | RingOp.drain bufferReady lockOk v g => (audioPlaybackStep bufferReady lockOk v g s).1

/-- Run a sequence of produce/drain operations. -/
def runRingOps (ops : List RingOp) (s : AudioState) : AudioState :=
  ops.foldl (fun st op => applyRingOp op st) s

theorem applyRingOp_inv (op : RingOp) (s : AudioState) (h : BufInv s) :
    BufInv (applyRingOp op s) := by
  cases op with
  | produce initialized lockOk xs => exact queueAudioData_inv _ _ _ _ h
  | drain bufferReady lockOk v g => exact audioPlaybackStep_inv _ _ _ _ _ h

theorem runRingOps_inv (ops : List RingOp) (s : AudioState) (h : BufInv s) :
    BufInv (runRingOps ops s) := by
  induction ops generalizing s with
  | nil => exact h
  | cons op ops ih => exact ih _ (applyRingOp_inv op s h)

theorem initRingBufferState_inv : BufInv initRingBufferState := by
  constructor <;> simp [initRingBufferState, AUDIO_RING_BUFFER_SIZE]

theorem queueAudioData_fst_le (initialized lockOk : Bool) (xs : List Int)
    (s : AudioState) :
    (queueAudioData initialized lockOk xs s).1 ≤ getBufferFreeSpace s := by
  unfold queueAudioData
  split
  · exact Nat.zero_le _
  · split
    · exact Nat.zero_le _
    · exact Nat.min_le_right _ _

/-- C1: Ring buffer invariant.  For every sequence of produce
(queueAudioData) and drain (playback-task iteration) operations starting
from the initial state (head = tail = 0), the occupancy is at most
capacity - 1, and every queueAudioData call on the reached state returns an
accepted count that is at most the free space (capacity - occupancy - 1) at
the time of the call. -/
theorem ringBuffer_invariant (ops : List RingOp) :
    getBufferedSamples (runRingOps ops initRingBufferState) ≤ AUDIO_RING_BUFFER_SIZE - 1 ∧
    ∀ (initialized lockOk : Bool) (xs : List Int),
      (queueAudioData initialized lockOk xs (runRingOps ops initRingBufferState)).1 ≤
        AUDIO_RING_BUFFER_SIZE -
          getBufferedSamples (runRingOps ops initRingBufferState) - 1 := by
  have h := runRingOps_inv ops initRingBufferState initRingBufferState_inv
  exact ⟨getBufferedSamples_le _ h, fun initialized lockOk xs =>
    queueAudioData_fst_le initialized lockOk xs _⟩

/-- C2: Forwarding gate.  sendVoiceAudio transmits microphone samples
(invokes sendBIN) iff the channel is connected and the state is one of
Idle, Listening, Speaking; in Processing or Disconnected it sends nothing
and returns false. -/
theorem sendVoiceAudio_gate (s : SysState) (sendOk : Bool) :
    ((sendVoiceAudio s sendOk).1 = true ↔
      s.wsConnected = true ∧
        (s.currentVoiceState = VoiceState.VOICE_IDLE ∨
         s.currentVoiceState = VoiceState.VOICE_LISTENING ∨
         s.currentVoiceState = VoiceState.VOICE_SPEAKING)) ∧
    ((s.currentVoiceState = VoiceState.VOICE_PROCESSING ∨
      s.currentVoiceState = VoiceState.VOICE_DISCONNECTED) →
      sendVoiceAudio s sendOk = (false, false)) := by
  obtain ⟨st, conn, audio⟩ := s
  cases st <;> cases conn <;> simp [sendVoiceAudio]

/-- C2 witness: in Processing, with the socket up, nothing is sent and the
call returns false. -/
theorem sendVoiceAudio_gate_witness :
    sendVoiceAudio
      { currentVoiceState := VoiceState.VOICE_PROCESSING, wsConnected := true,
        audio := initRingBufferState } true = (false, false) :=
  (sendVoiceAudio_gate _ true).2 (Or.inl rfl)

/-- C3: Interrupt hard-stop.  clearAudioBuffer (with the mutex acquired, as
in the sequential semantics) zeroes the occupancy immediately by resetting
both cursors, clears the playing and stream-finished flags, and silences
the output device, for every buffer state; and the voice.interrupt handler
clears the buffer, resets the capture path, and transitions to Listening. -/
theorem interrupt_hard_stop :
    (∀ s : AudioState,
      getBufferedSamples (clearAudioBuffer true s).1 = 0 ∧
      (clearAudioBuffer true s).1.ringBufferHead = 0 ∧
      (clearAudioBuffer true s).1.ringBufferTail = 0 ∧
      (clearAudioBuffer true s).1.bufferPlaying = false ∧
      (clearAudioBuffer true s).1.streamFinished = false ∧
      HwAction.zeroSpeaker ∈ (clearAudioBuffer true s).2) ∧
    (∀ sys : SysState,
      (handleServerMessage ServerMsg.interrupt sys).1.currentVoiceState =
        VoiceState.VOICE_LISTENING ∧
      getBufferedSamples (handleServerMessage ServerMsg.interrupt sys).1.audio = 0 ∧
      HwAction.zeroSpeaker ∈ (handleServerMessage ServerMsg.interrupt sys).2 ∧
      HwAction.restartMic ∈ (handleServerMessage ServerMsg.interrupt sys).2) := by
  constructor
  · intro s
    refine ⟨?_, rfl, rfl, rfl, rfl, ?_⟩
    · simp [clearAudioBuffer, getBufferedSamples]
    · simp [clearAudioBuffer]
  · intro sys
    refine ⟨rfl, ?_, ?_, ?_⟩
    · simp [handleServerMessage, setVoiceState, clearAudioBuffer, getBufferedSamples]
    · simp [handleServerMessage, clearAudioBuffer]
    · simp [handleServerMessage, clearAudioBuffer]

/-! Drain lemmas for the playback task. -/

theorem getBufferedSamples_setPlaying (s : AudioState) (b : Bool) :
    getBufferedSamples { s with bufferPlaying := b } = getBufferedSamples s := by
  unfold getBufferedSamples
  rfl

theorem playBody_drain_facts (v g : Nat) (s : AudioState) (hinv : BufInv s)
    (ho : 0 < getBufferedSamples s) :
    (playBody true v g s).1.bufferPlaying = s.bufferPlaying ∧
    (playBody true v g s).1.streamFinished = s.streamFinished ∧
    getBufferedSamples (playBody true v g s).1 =
      getBufferedSamples s - min (getBufferedSamples s) AUDIO_PLAYBACK_CHUNK := by
  have hne : ¬ getBufferedSamples s = 0 := by omega
  have hocc1 : getBufferedSamples { s with underrunCount := 0 } = getBufferedSamples s := rfl
  have hinv1 : BufInv { s with underrunCount := 0 } := hinv
  unfold playBody
  rw [if_neg hne, if_pos rfl]
  refine ⟨?_, ?_, ?_⟩
  · simp [readChunk_bufferPlaying]
  · simp [readChunk_streamFinished]
  · simp only
    rw [getBufferedSamples_after_read _ hinv1 _ (by rw [hocc1]; exact Nat.min_le_left _ _)]
    rw [hocc1]

/-- Completion iteration: buffer empty and stream finished while playing. -/
theorem playBody_completion (v g : Nat) (lockOk : Bool) (s : AudioState)
    (ho : getBufferedSamples s = 0) (hfin : s.streamFinished = true) :
    playBody lockOk v g s =
      ({ s with bufferPlaying := false, streamFinished := false, underrunCount := 0 },
       [HwAction.zeroSpeaker]) := by
  unfold playBody
  rw [if_pos ho, if_pos hfin]

/-- Iterate the playback task (buffer ready, lock available each time). -/
def drainIter (v g : Nat) : Nat → AudioState → AudioState
  | 0, s => s
  | n + 1, s => drainIter v g n (audioPlaybackStep true true v g s).1

theorem audioPlaybackStep_playing (v g : Nat) (lockOk : Bool) (s : AudioState)
    (hp : s.bufferPlaying = true) :
    audioPlaybackStep true lockOk v g s = playBody lockOk v g s := by
  unfold audioPlaybackStep
  rw [if_neg (by simp), if_neg (by simp [hp])]

theorem audioPlaybackStep_start_finished (v g : Nat) (lockOk : Bool) (s : AudioState)
    (hp : s.bufferPlaying = false) (hfin : s.streamFinished = true)
    (ho : 0 < getBufferedSamples s) :
    audioPlaybackStep true lockOk v g s =
      playBody lockOk v g { s with bufferPlaying := true } := by
  unfold audioPlaybackStep
  rw [if_neg (by simp), if_pos hp, if_neg (by simp [hfin]), if_pos ⟨hfin, ho⟩]

/-- After finishAudioStream, the scheduler drains the buffer to empty and
then stops: some number of consecutive iterations reaches occupancy 0 with
both flags cleared. -/
theorem drain_completes (v g : Nat) :
    ∀ (occ : Nat) (s : AudioState), BufInv s → s.streamFinished = true →
      (s.bufferPlaying = true ∨ 0 < getBufferedSamples s) →
      getBufferedSamples s = occ →
      ∃ n, getBufferedSamples (drainIter v g n s) = 0 ∧
        (drainIter v g n s).bufferPlaying = false ∧
        (drainIter v g n s).streamFinished = false := by
  intro occ
  induction occ using Nat.strong_induction_on with
  | _ occ ih =>
    intro s hinv hfin hp hocc
    by_cases ho : getBufferedSamples s = 0
    · have hpl : s.bufferPlaying = true := by
        rcases hp with h | h
        · exact h
        · omega
      refine ⟨1, ?_⟩
      have hd : drainIter v g 1 s = (audioPlaybackStep true true v g s).1 := rfl
      rw [hd, audioPlaybackStep_playing v g true s hpl, playBody_completion v g true s ho hfin]
      exact ⟨ho, rfl, rfl⟩
    · have hopos : 0 < getBufferedSamples s := by omega
      have hstep : (audioPlaybackStep true true v g s).1 =
          (playBody true v g { s with bufferPlaying := true }).1 ∨
          (audioPlaybackStep true true v g s).1 = (playBody true v g s).1 := by
        cases hpl : s.bufferPlaying with
        | false =>
            left
            rw [audioPlaybackStep_start_finished v g true s hpl hfin hopos]
        | true =>
            right
            rw [audioPlaybackStep_playing v g true s hpl]
      have hnext : ∀ s2 : AudioState, BufInv s2 → s2.bufferPlaying = true →
          s2.streamFinished = true →
          getBufferedSamples s2 = getBufferedSamples s →
          ∃ n, getBufferedSamples (drainIter v g n (playBody true v g s2).1) = 0 ∧
            (drainIter v g n (playBody true v g s2).1).bufferPlaying = false ∧
            (drainIter v g n (playBody true v g s2).1).streamFinished = false := by
        intro s2 hinv2 hp2 hf2 ho2
        obtain ⟨hb, hf, hoc⟩ := playBody_drain_facts v g s2 hinv2 (by omega)
        have hchunk : 0 < min (getBufferedSamples s2) AUDIO_PLAYBACK_CHUNK := by
          have : 0 < AUDIO_PLAYBACK_CHUNK := by simp [AUDIO_PLAYBACK_CHUNK]
          omega
        exact ih (getBufferedSamples (playBody true v g s2).1) (by omega)
          (playBody true v g s2).1 (playBody_inv _ _ _ _ hinv2)
          (by rw [hf]; exact hf2) (Or.inl (by rw [hb]; exact hp2)) rfl
      rcases hstep with hstep | hstep
      · obtain ⟨n, hn⟩ := hnext { s with bufferPlaying := true } hinv rfl hfin rfl
        refine ⟨n + 1, ?_⟩
        have hd : drainIter v g (n + 1) s =
            drainIter v g n (audioPlaybackStep true true v g s).1 := rfl
        rw [hd, hstep]
        exact hn
      · have hpl : s.bufferPlaying = true := by
          cases hpl2 : s.bufferPlaying with
          | false => rw [audioPlaybackStep_start_finished v g true s hpl2 hfin hopos] at hstep
                     exact absurd hstep (by
                       obtain ⟨hb1, _, _⟩ := playBody_drain_facts v g
                         { s with bufferPlaying := true } hinv (by exact hopos)
                       obtain ⟨hb2, _, _⟩ := playBody_drain_facts v g s hinv hopos
                       intro hcontra
                       rw [hcontra] at hb1
                       rw [hb2, hpl2] at hb1
                       simp at hb1)
          | true => rfl
        obtain ⟨n, hn⟩ := hnext s hinv hpl hfin rfl
        refine ⟨n + 1, ?_⟩
        have hd : drainIter v g (n + 1) s =
            drainIter v g n (audioPlaybackStep true true v g s).1 := rfl
        rw [hd, hstep]
        exact hn

/-- C4 counterexample: with 5000 samples still buffered, receiving voice.done
in Speaking sets the state to Idle and emits the capture-path reset signal
within the handler itself, while the occupancy is still 5000 — refuting that
the Idle transition and capture reset occur only once the buffer drains
to 0. -/
theorem voiceDone_not_deferred_cex :
    (handleServerMessage ServerMsg.done
      { currentVoiceState := VoiceState.VOICE_SPEAKING, wsConnected := true,
        audio := { ringBufferHead := 5000, ringBufferTail := 0, ringBuffer := fun _ => 0,
                   bufferPlaying := true, streamFinished := false,
                   underrunCount := 0 } }).1.currentVoiceState = VoiceState.VOICE_IDLE ∧
    getBufferedSamples (handleServerMessage ServerMsg.done
      { currentVoiceState := VoiceState.VOICE_SPEAKING, wsConnected := true,
        audio := { ringBufferHead := 5000, ringBufferTail := 0, ringBuffer := fun _ => 0,
                   bufferPlaying := true, streamFinished := false,
                   underrunCount := 0 } }).1.audio = 5000 ∧
    HwAction.restartMic ∈ (handleServerMessage ServerMsg.done
      { currentVoiceState := VoiceState.VOICE_SPEAKING, wsConnected := true,
        audio := { ringBufferHead := 5000, ringBufferTail := 0, ringBuffer := fun _ => 0,
                   bufferPlaying := true, streamFinished := false,
                   underrunCount := 0 } }).2 := by
  refine ⟨rfl, by decide, by decide⟩

/-- C4 (amended): when voice.done arrives in Speaking, finishStream is
invoked (the stream-finished flag is set) and the transition to Idle and the
capture-path reset signal happen immediately in the handler, with the buffer
cursors untouched; the playback scheduler then, on its own iterations,
drains the remaining buffered audio to occupancy 0 and stops, and the
iteration that finds the buffer empty with the stream finished clears the
playing and stream-finished flags and silences the output device. -/
theorem voiceDone_finishStream_drain :
    (∀ sys : SysState, sys.currentVoiceState = VoiceState.VOICE_SPEAKING →
      (handleServerMessage ServerMsg.done sys).1.audio.streamFinished = true ∧
      (handleServerMessage ServerMsg.done sys).1.audio.ringBufferHead =
        sys.audio.ringBufferHead ∧
      (handleServerMessage ServerMsg.done sys).1.audio.ringBufferTail =
        sys.audio.ringBufferTail ∧
      (handleServerMessage ServerMsg.done sys).1.currentVoiceState =
        VoiceState.VOICE_IDLE ∧
      HwAction.restartMic ∈ (handleServerMessage ServerMsg.done sys).2) ∧
    (∀ (v g : Nat) (s : AudioState), BufInv s → s.streamFinished = true →
      (s.bufferPlaying = true ∨ 0 < getBufferedSamples s) →
      ∃ n, getBufferedSamples (drainIter v g n s) = 0 ∧
        (drainIter v g n s).bufferPlaying = false ∧
        (drainIter v g n s).streamFinished = false) ∧
    (∀ (v g : Nat) (lockOk : Bool) (s : AudioState),
      s.bufferPlaying = true → s.streamFinished = true → getBufferedSamples s = 0 →
      audioPlaybackStep true lockOk v g s =
        ({ s with bufferPlaying := false, streamFinished := false, underrunCount := 0 },
         [HwAction.zeroSpeaker])) := by
  refine ⟨?_, ?_, ?_⟩
  · intro sys _
    exact ⟨rfl, rfl, rfl, rfl, by simp [handleServerMessage]⟩
  · intro v g s hinv hfin hp
    exact drain_completes v g (getBufferedSamples s) s hinv hfin hp rfl
  · intro v g lockOk s hp hfin ho
    rw [audioPlaybackStep_playing v g lockOk s hp, playBody_completion v g lockOk s ho hfin]

/-- C4 witness: the amended theorem applied at a Speaking session with 3000
buffered samples, at a finished draining buffer of 3000 samples, and at an
empty finished buffer. -/
theorem voiceDone_finishStream_drain_witness :
    ((handleServerMessage ServerMsg.done
        { currentVoiceState := VoiceState.VOICE_SPEAKING, wsConnected := true,
          audio := { ringBufferHead := 3000, ringBufferTail := 0, ringBuffer := fun _ => 0,
                     bufferPlaying := true, streamFinished := false,
                     underrunCount := 0 } }).1.audio.streamFinished = true ∧
      (handleServerMessage ServerMsg.done
        { currentVoiceState := VoiceState.VOICE_SPEAKING, wsConnected := true,
          audio := { ringBufferHead := 3000, ringBufferTail := 0, ringBuffer := fun _ => 0,
                     bufferPlaying := true, streamFinished := false,
                     underrunCount := 0 } }).1.audio.ringBufferHead = 3000 ∧
      (handleServerMessage ServerMsg.done
        { currentVoiceState := VoiceState.VOICE_SPEAKING, wsConnected := true,
          audio := { ringBufferHead := 3000, ringBufferTail := 0, ringBuffer := fun _ => 0,
                     bufferPlaying := true, streamFinished := false,
                     underrunCount := 0 } }).1.audio.ringBufferTail = 0 ∧
      (handleServerMessage ServerMsg.done
        { currentVoiceState := VoiceState.VOICE_SPEAKING, wsConnected := true,
          audio := { ringBufferHead := 3000, ringBufferTail := 0, ringBuffer := fun _ => 0,
                     bufferPlaying := true, streamFinished := false,
                     underrunCount := 0 } }).1.currentVoiceState = VoiceState.VOICE_IDLE ∧
      HwAction.restartMic ∈ (handleServerMessage ServerMsg.done
        { currentVoiceState := VoiceState.VOICE_SPEAKING, wsConnected := true,
          audio := { ringBufferHead := 3000, ringBufferTail := 0, ringBuffer := fun _ => 0,
                     bufferPlaying := true, streamFinished := false,
                     underrunCount := 0 } }).2) ∧
    (∃ n, getBufferedSamples (drainIter 70 300 n
        { ringBufferHead := 3000, ringBufferTail := 0, ringBuffer := fun _ => 0,
          bufferPlaying := true, streamFinished := true, underrunCount := 0 }) = 0 ∧
      (drainIter 70 300 n
        { ringBufferHead := 3000, ringBufferTail := 0, ringBuffer := fun _ => 0,
          bufferPlaying := true, streamFinished := true,
          underrunCount := 0 }).bufferPlaying = false ∧
      (drainIter 70 300 n
        { ringBufferHead := 3000, ringBufferTail := 0, ringBuffer := fun _ => 0,
          bufferPlaying := true, streamFinished := true,
          underrunCount := 0 }).streamFinished = false) ∧
    (audioPlaybackStep true true 70 300
        { ringBufferHead := 0, ringBufferTail := 0, ringBuffer := fun _ => 0,
          bufferPlaying := true, streamFinished := true, underrunCount := 0 } =
      ({ ringBufferHead := 0, ringBufferTail := 0, ringBuffer := fun _ => 0,
         bufferPlaying := false, streamFinished := false, underrunCount := 0 },
       [HwAction.zeroSpeaker])) :=
  ⟨voiceDone_finishStream_drain.1 _ rfl,
   voiceDone_finishStream_drain.2.1 70 300 _ ⟨by decide, by decide⟩ rfl (Or.inl rfl),
   voiceDone_finishStream_drain.2.2 70 300 true _ rfl rfl rfl⟩

/-! State machine coverage. -/

/-- Modelled from the spec's words (§4.3): the declared transitions
`Disconnected → Idle ⇄ Listening → Processing → Speaking → Idle`, the
interrupt side-transition `Speaking → Listening`, and `any state →
Disconnected`.  (The spec's `Error → Idle` is not expressible here: the
code's VoiceState enum has no Error state.) -/
def specDeclaredTransition (a b : VoiceState) : Prop :=
  (a = VoiceState.VOICE_DISCONNECTED ∧ b = VoiceState.VOICE_IDLE) ∨
  (a = VoiceState.VOICE_IDLE ∧ b = VoiceState.VOICE_LISTENING) ∨
  (a = VoiceState.VOICE_LISTENING ∧ b = VoiceState.VOICE_IDLE) ∨
  (a = VoiceState.VOICE_LISTENING ∧ b = VoiceState.VOICE_PROCESSING) ∨
  (a = VoiceState.VOICE_PROCESSING ∧ b = VoiceState.VOICE_SPEAKING) ∨
  (a = VoiceState.VOICE_SPEAKING ∧ b = VoiceState.VOICE_IDLE) ∨
  (a = VoiceState.VOICE_SPEAKING ∧ b = VoiceState.VOICE_LISTENING) ∨
  b = VoiceState.VOICE_DISCONNECTED

/-- Transition a → b is exhibited by the code: some finite event sequence
from the startup state reaches a, and one further event moves to b. -/
def transitionReachable (a b : VoiceState) : Prop :=
  ∃ (tr : List WsEvent) (e : WsEvent),
    (runWsEvents tr initialSysState).currentVoiceState = a ∧
    (webSocketEvent e (runWsEvents tr initialSysState)).1.currentVoiceState = b

/-- The state each message type drives the machine to, read off
handleServerMessage: it depends only on the message, never on the current
state. -/
def handlerTargetState (m : ServerMsg) (cur : VoiceState) : VoiceState :=
  match m with
  | ServerMsg.listening => VoiceState.VOICE_LISTENING
  | ServerMsg.processing => VoiceState.VOICE_PROCESSING
  | ServerMsg.response _ => VoiceState.VOICE_SPEAKING
  | ServerMsg.done => VoiceState.VOICE_IDLE
  | ServerMsg.interrupt => VoiceState.VOICE_LISTENING
  | ServerMsg.error _ => VoiceState.VOICE_IDLE
  | _ => cur

/-- C5 counterexample: in Idle, a voice.processing message moves the machine
directly to Processing, a transition not declared in §4.3 — so the message
handlers do take undeclared transitions. -/
theorem undeclared_transition_cex :
    (handleServerMessage ServerMsg.processing
      { currentVoiceState := VoiceState.VOICE_IDLE, wsConnected := true,
        audio := initRingBufferState }).1.currentVoiceState =
      VoiceState.VOICE_PROCESSING ∧
    ¬ specDeclaredTransition VoiceState.VOICE_IDLE VoiceState.VOICE_PROCESSING :=
  ⟨rfl, by simp [specDeclaredTransition]⟩

/-- C5 (amended): every declared transition of §4.3 that exists in the code
(Disconnected→Idle on connect, Idle→Listening, Listening→Idle,
Listening→Processing, Processing→Speaking, Speaking→Idle,
Speaking→Listening, and any state→Disconnected) is reachable from
Disconnected by a finite sequence of channel events and control messages;
but the handlers do not guard on the current state: each state-changing
message drives the machine to a target determined by the message alone (so
undeclared transitions such as Idle→Processing are also taken), and the
code has no Error state (voice.error maps any state to Idle). -/
theorem state_machine_coverage :
    (transitionReachable VoiceState.VOICE_DISCONNECTED VoiceState.VOICE_IDLE ∧
     transitionReachable VoiceState.VOICE_IDLE VoiceState.VOICE_LISTENING ∧
     transitionReachable VoiceState.VOICE_LISTENING VoiceState.VOICE_IDLE ∧
     transitionReachable VoiceState.VOICE_LISTENING VoiceState.VOICE_PROCESSING ∧
     transitionReachable VoiceState.VOICE_PROCESSING VoiceState.VOICE_SPEAKING ∧
     transitionReachable VoiceState.VOICE_SPEAKING VoiceState.VOICE_IDLE ∧
     transitionReachable VoiceState.VOICE_SPEAKING VoiceState.VOICE_LISTENING) ∧
    (∀ a : VoiceState, transitionReachable a VoiceState.VOICE_DISCONNECTED) ∧
    (∀ (s : SysState) (m : ServerMsg),
      (handleServerMessage m s).1.currentVoiceState =
        handlerTargetState m s.currentVoiceState) ∧
    (∀ s : SysState,
      (webSocketEvent WsEvent.connected s).1.currentVoiceState =
        VoiceState.VOICE_IDLE ∧
      (webSocketEvent WsEvent.disconnected s).1.currentVoiceState =
        VoiceState.VOICE_DISCONNECTED) := by
  refine ⟨⟨?_, ?_, ?_, ?_, ?_, ?_, ?_⟩, ?_, ?_, ?_⟩
  · exact ⟨[], WsEvent.connected, rfl, rfl⟩
  · exact ⟨[WsEvent.connected], WsEvent.text ServerMsg.listening, rfl, rfl⟩
  · exact ⟨[WsEvent.connected, WsEvent.text ServerMsg.listening],
      WsEvent.text ServerMsg.done, rfl, rfl⟩
  · exact ⟨[WsEvent.connected, WsEvent.text ServerMsg.listening],
      WsEvent.text ServerMsg.processing, rfl, rfl⟩
  · exact ⟨[WsEvent.connected, WsEvent.text ServerMsg.listening,
      WsEvent.text ServerMsg.processing],
      WsEvent.text (ServerMsg.response "ok"), rfl, rfl⟩
  · exact ⟨[WsEvent.connected, WsEvent.text ServerMsg.listening,
      WsEvent.text ServerMsg.processing, WsEvent.text (ServerMsg.response "ok")],
      WsEvent.text ServerMsg.done, rfl, rfl⟩
  · exact ⟨[WsEvent.connected, WsEvent.text ServerMsg.listening,
      WsEvent.text ServerMsg.processing, WsEvent.text (ServerMsg.response "ok")],
      WsEvent.text ServerMsg.interrupt, rfl, rfl⟩
  · intro a
    cases a with
    | VOICE_DISCONNECTED => exact ⟨[], WsEvent.disconnected, rfl, rfl⟩
    | VOICE_IDLE => exact ⟨[WsEvent.connected], WsEvent.disconnected, rfl, rfl⟩
    | VOICE_LISTENING =>
        exact ⟨[WsEvent.connected, WsEvent.text ServerMsg.listening],
          WsEvent.disconnected, rfl, rfl⟩
    | VOICE_PROCESSING =>
        exact ⟨[WsEvent.connected, WsEvent.text ServerMsg.listening,
          WsEvent.text ServerMsg.processing], WsEvent.disconnected, rfl, rfl⟩
    | VOICE_SPEAKING =>
        exact ⟨[WsEvent.connected, WsEvent.text ServerMsg.listening,
          WsEvent.text ServerMsg.processing, WsEvent.text (ServerMsg.response "ok")],
          WsEvent.disconnected, rfl, rfl⟩
  · intro s m
    cases m <;> rfl
  · intro s
    exact ⟨rfl, rfl⟩

/-! Gain clamping. -/

theorem setVolume_le (volume : Nat) : setVolume volume ≤ 100 := by
  simp only [setVolume]
  split <;> omega

theorem setGain_bounds (gain : Nat) : 100 ≤ setGain gain ∧ setGain gain ≤ 400 := by
  simp only [setGain]
  split_ifs <;> omega

/-- C6: Gain clamping.  For every 16-bit input sample, every volume produced
by setVolume (hence in [0,100]) and every gain produced by setGain (hence in
[100,400], i.e. 1.0x-4.0x), applyVolume's output stays in the signed 16-bit
range [-32768, 32767] (saturating), and the int32 intermediate product
x * volume * gain stays strictly inside [-2^31, 2^31), so the intermediate
arithmetic cannot overflow. -/
theorem gain_clamping (volume gain : Nat) (x : Int)
    (hx1 : -32768 ≤ x) (hx2 : x ≤ 32767) :
    (-32768 ≤ applyVolumeSample (setVolume volume) (setGain gain) x ∧
     applyVolumeSample (setVolume volume) (setGain gain) x ≤ 32767) ∧
    (-2147483648 ≤ x * (setVolume volume : Int) * (setGain gain : Int) ∧
     x * (setVolume volume : Int) * (setGain gain : Int) < 2147483648) := by
  have hv := setVolume_le volume
  have hg := setGain_bounds gain
  constructor
  · simp only [applyVolumeSample]
    split_ifs with h1 h2 <;> omega
  · have hxa : x.natAbs ≤ 32768 := by omega
    have hprod : (x * (setVolume volume : Int) * (setGain gain : Int)).natAbs =
        x.natAbs * setVolume volume * setGain gain := by
      rw [Int.natAbs_mul, Int.natAbs_mul]
      simp
    have hb : (x * (setVolume volume : Int) * (setGain gain : Int)).natAbs ≤
        32768 * 100 * 400 := by
      rw [hprod]
      exact Nat.mul_le_mul (Nat.mul_le_mul hxa hv) hg.2
    omega

/-- C6 witness: the theorem applied at sample 1000, volume request 70, gain
request 300. -/
theorem gain_clamping_witness :
    (-32768 ≤ applyVolumeSample (setVolume 70) (setGain 300) 1000 ∧
     applyVolumeSample (setVolume 70) (setGain 300) 1000 ≤ 32767) ∧
    (-2147483648 ≤ 1000 * (setVolume 70 : Int) * (setGain 300 : Int) ∧
     1000 * (setVolume 70 : Int) * (setGain 300 : Int) < 2147483648) :=
  gain_clamping 70 300 1000 (by decide) (by decide)

/-- Successful produce with enough free space: everything is accepted. -/
theorem queueAudioData_success (xs : List Int) (s : AudioState)
    (hfree : xs.length ≤ getBufferFreeSpace s) :
    queueAudioData true true xs s = (xs.length, writeSamples xs s) := by
  unfold queueAudioData
  rw [if_neg (by simp), if_neg (by simp)]
  simp only
  rw [Nat.min_eq_left hfree, List.take_length]

/-- Scenario A burst: produce 2048 samples, then run one playback-task
iteration (volume 70, gain 300, buffer ready, lock available). -/
def scenarioBurst (s : AudioState) : AudioState :=
  (audioPlaybackStep true true 70 300
    (queueAudioData true true (List.replicate 2048 0) s).2).1

theorem scenarioBurst_below_threshold (s : AudioState)
    (hp : s.bufferPlaying = false) (hf : s.streamFinished = false)
    (ht : s.ringBufferTail = 0)
    (hh : s.ringBufferHead + 2048 < AUDIO_START_THRESHOLD) :
    (scenarioBurst s).ringBufferHead = s.ringBufferHead + 2048 ∧
    (scenarioBurst s).ringBufferTail = 0 ∧
    (scenarioBurst s).bufferPlaying = false ∧
    (scenarioBurst s).streamFinished = false := by
  have hocc : getBufferedSamples s = s.ringBufferHead := by
    unfold getBufferedSamples
    rw [ht]
    simp
  have hfree : (List.replicate 2048 (0 : Int)).length ≤ getBufferFreeSpace s := by
    unfold getBufferFreeSpace
    rw [hocc]
    simp only [List.length_replicate, AUDIO_START_THRESHOLD] at hh ⊢
    simp only [AUDIO_RING_BUFFER_SIZE]
    omega
  have hhead : s.ringBufferHead < AUDIO_RING_BUFFER_SIZE := by
    simp only [AUDIO_START_THRESHOLD] at hh
    simp only [AUDIO_RING_BUFFER_SIZE]
    omega
  unfold scenarioBurst
  rw [queueAudioData_success _ _ hfree]
  simp only
  set s2 := writeSamples (List.replicate 2048 (0 : Int)) s with hs2
  have h2head : s2.ringBufferHead = s.ringBufferHead + 2048 := by
    rw [hs2, writeSamples_head _ _ hhead]
    simp only [List.length_replicate]
    rw [Nat.mod_eq_of_lt]
    simp only [AUDIO_START_THRESHOLD] at hh
    simp only [AUDIO_RING_BUFFER_SIZE]
    omega
  have h2tail : s2.ringBufferTail = 0 := by rw [hs2, writeSamples_tail, ht]
  have h2play : s2.bufferPlaying = false := by rw [hs2, writeSamples_bufferPlaying, hp]
  have h2fin : s2.streamFinished = false := by rw [hs2, writeSamples_streamFinished, hf]
  have h2occ : getBufferedSamples s2 = s.ringBufferHead + 2048 := by
    unfold getBufferedSamples
    rw [h2head, h2tail]
    simp
  unfold audioPlaybackStep
  rw [if_neg (by simp), if_pos h2play,
    if_neg (by rw [h2occ, h2fin]; simp only [AUDIO_START_THRESHOLD] at hh ⊢; omega),
    if_neg (by rw [h2fin]; simp)]
  exact ⟨h2head, h2tail, h2play, h2fin⟩

theorem scenarioBurst_iter (k : Nat) (hk : k ≤ 7) :
    (scenarioBurst^[k] initRingBufferState).ringBufferHead = 2048 * k ∧
    (scenarioBurst^[k] initRingBufferState).ringBufferTail = 0 ∧
    (scenarioBurst^[k] initRingBufferState).bufferPlaying = false ∧
    (scenarioBurst^[k] initRingBufferState).streamFinished = false := by
  induction k with
  | zero => exact ⟨rfl, rfl, rfl, rfl⟩
  | succ k ih =>
      obtain ⟨ih1, ih2, ih3, ih4⟩ := ih (by omega)
      rw [Function.iterate_succ_apply']
      have := scenarioBurst_below_threshold (scenarioBurst^[k] initRingBufferState)
        ih3 ih4 ih2 (by rw [ih1]; simp only [AUDIO_START_THRESHOLD]; omega)
      rw [ih1] at this
      refine ⟨by rw [this.1]; ring, this.2.1, this.2.2.1, this.2.2.2⟩

/-- A not-playing iteration whose occupancy has reached the start threshold
with the stream not finished starts playback. -/
theorem audioPlaybackStep_starts_threshold (v g : Nat) (s : AudioState)
    (hinv : BufInv s) (hp : s.bufferPlaying = false) (hf : s.streamFinished = false)
    (ho : AUDIO_START_THRESHOLD ≤ getBufferedSamples s) :
    (audioPlaybackStep true true v g s).1.bufferPlaying = true := by
  obtain ⟨h1, h2, h3, h4, h5, h6⟩ := s
  simp only at hp hf
  subst hp hf
  unfold audioPlaybackStep
  rw [if_neg (by simp), if_pos rfl, if_pos ⟨ho, rfl⟩]
  obtain ⟨hb, hx, hy⟩ := playBody_drain_facts v g
    ⟨h1, h2, h3, true, false, h6⟩ hinv
    (by
      have he : getBufferedSamples ⟨h1, h2, h3, true, false, h6⟩ =
          getBufferedSamples ⟨h1, h2, h3, false, false, h6⟩ := rfl
      simp only [AUDIO_START_THRESHOLD] at ho
      omega)
  rw [hb]

/-- The 8th burst: from occupancy 14336 a 2048-sample burst reaches 16384,
crossing the start threshold, so the following iteration starts playback. -/
theorem scenarioBurst_crosses (s : AudioState)
    (ih1 : s.ringBufferHead = 14336) (ih2 : s.ringBufferTail = 0)
    (ih3 : s.bufferPlaying = false) (ih4 : s.streamFinished = false) :
    (scenarioBurst s).bufferPlaying = true := by
  have hocc : getBufferedSamples s = 14336 := by
    unfold getBufferedSamples
    rw [ih1, ih2]
    simp
  have hfree : (List.replicate 2048 (0 : Int)).length ≤ getBufferFreeSpace s := by
    unfold getBufferFreeSpace
    rw [hocc]
    simp only [List.length_replicate, AUDIO_RING_BUFFER_SIZE]
    omega
  unfold scenarioBurst
  rw [queueAudioData_success _ _ hfree]
  have h2head : (writeSamples (List.replicate 2048 (0 : Int)) s).ringBufferHead = 16384 := by
    rw [writeSamples_head _ _ (by rw [ih1]; simp [AUDIO_RING_BUFFER_SIZE])]
    rw [ih1]
    simp only [List.length_replicate]
    rw [Nat.mod_eq_of_lt]
    simp [AUDIO_RING_BUFFER_SIZE]
  have h2tail : (writeSamples (List.replicate 2048 (0 : Int)) s).ringBufferTail = 0 := by
    rw [writeSamples_tail, ih2]
  have h2play : (writeSamples (List.replicate 2048 (0 : Int)) s).bufferPlaying = false := by
    rw [writeSamples_bufferPlaying, ih3]
  have h2fin : (writeSamples (List.replicate 2048 (0 : Int)) s).streamFinished = false := by
    rw [writeSamples_streamFinished, ih4]
  generalize hgen :
    writeSamples (List.replicate 2048 (0 : Int)) s = s2 at h2head h2tail h2play h2fin ⊢
  have h2occ : getBufferedSamples s2 = 16384 := by
    unfold getBufferedSamples
    rw [h2head, h2tail]
    simp
  have h2inv : BufInv s2 := by
    constructor
    · rw [h2head]; simp [AUDIO_RING_BUFFER_SIZE]
    · rw [h2tail]; simp [AUDIO_RING_BUFFER_SIZE]
  exact audioPlaybackStep_starts_threshold 70 300 s2 h2inv h2play h2fin
    (by rw [h2occ]; simp only [AUDIO_START_THRESHOLD]; omega)

/-- After the 8th burst the scheduler is playing. -/
theorem scenarioBurst_starts :
    (scenarioBurst^[8] initRingBufferState).bufferPlaying = true := by
  obtain ⟨ih1, ih2, ih3, ih4⟩ := scenarioBurst_iter 7 (by omega)
  rw [Function.iterate_succ_apply']
  exact scenarioBurst_crosses _ ih1 ih2 ih3 ih4

/-- Dequeuing from a nonempty buffer does not change the playing flag, for
either lock outcome. -/
theorem playBody_bufferPlaying_of_pos (lockOk : Bool) (v g : Nat) (s : AudioState)
    (ho : 0 < getBufferedSamples s) :
    (playBody lockOk v g s).1.bufferPlaying = s.bufferPlaying := by
  unfold playBody
  rw [if_neg (by omega)]
  by_cases hl : lockOk = true
  · rw [if_pos hl]
    simp only
    rw [readChunk_bufferPlaying]
  · rw [if_neg hl]

/-- Whenever the start gate's condition holds on a not-playing iteration
with the buffer ready, playback starts, for every lock outcome. -/
theorem audioPlaybackStep_starts (lockOk : Bool) (v g : Nat) (s : AudioState)
    (hp : s.bufferPlaying = false)
    (hcond : (AUDIO_START_THRESHOLD ≤ getBufferedSamples s ∧ s.streamFinished = false) ∨
      (s.streamFinished = true ∧ 0 < getBufferedSamples s)) :
    (audioPlaybackStep true lockOk v g s).1.bufferPlaying = true := by
  obtain ⟨h1, h2, h3, h4, h5, h6⟩ := s
  simp only at hp
  subst hp
  unfold audioPlaybackStep
  rw [if_neg (by simp), if_pos rfl]
  rcases hcond with ⟨ho, hf⟩ | ⟨hf, ho⟩
  · simp only at hf
    subst hf
    rw [if_pos ⟨ho, rfl⟩]
    refine (playBody_bufferPlaying_of_pos lockOk v g _ ?_).trans rfl
    show 0 < getBufferedSamples ⟨h1, h2, h3, true, false, h6⟩
    have he : getBufferedSamples ⟨h1, h2, h3, true, false, h6⟩ =
        getBufferedSamples ⟨h1, h2, h3, false, false, h6⟩ := rfl
    simp only [AUDIO_START_THRESHOLD] at ho
    omega
  · simp only at hf
    subst hf
    rw [if_neg (by simp), if_pos ⟨rfl, ho⟩]
    refine (playBody_bufferPlaying_of_pos lockOk v g _ ?_).trans rfl
    show 0 < getBufferedSamples ⟨h1, h2, h3, true, true, h6⟩
    have he : getBufferedSamples ⟨h1, h2, h3, true, true, h6⟩ =
        getBufferedSamples ⟨h1, h2, h3, false, true, h6⟩ := rfl
    omega

/-- C7: Start-threshold buffering.  While the scheduler is not playing and
the buffer is ready, an iteration switches it to playing exactly when the
occupancy has reached AUDIO_START_THRESHOLD (16000 samples) with the stream
not finished, or the stream is finished with nonzero occupancy: it never
begins playback before either condition holds, and whenever either
condition holds the iteration enters playing.  In particular, producing
samples in bursts of 2048 (one playback-task iteration after each burst)
leaves it not playing after each of the first 7 bursts (occupancy at most
14336 < 16000) and playing after the 8th (occupancy 16384). -/
theorem start_threshold_buffering :
    (∀ (bufferReady lockOk : Bool) (v g : Nat) (s : AudioState),
      s.bufferPlaying = false →
      (audioPlaybackStep bufferReady lockOk v g s).1.bufferPlaying = true →
      (AUDIO_START_THRESHOLD ≤ getBufferedSamples s ∧ s.streamFinished = false) ∨
      (s.streamFinished = true ∧ 0 < getBufferedSamples s)) ∧
    (∀ (lockOk : Bool) (v g : Nat) (s : AudioState),
      s.bufferPlaying = false →
      ((AUDIO_START_THRESHOLD ≤ getBufferedSamples s ∧ s.streamFinished = false) ∨
        (s.streamFinished = true ∧ 0 < getBufferedSamples s)) →
      (audioPlaybackStep true lockOk v g s).1.bufferPlaying = true) ∧
    (∀ k, k < 8 → (scenarioBurst^[k] initRingBufferState).bufferPlaying = false) ∧
    (scenarioBurst^[8] initRingBufferState).bufferPlaying = true := by
  refine ⟨?_,
    fun lockOk v g s hp hcond => audioPlaybackStep_starts lockOk v g s hp hcond,
    fun k hk => (scenarioBurst_iter k (by omega)).2.2.1, scenarioBurst_starts⟩
  intro bufferReady lockOk v g s hnp hstart
  unfold audioPlaybackStep at hstart
  by_cases hr : bufferReady = false
  · rw [if_pos hr] at hstart
    simp only at hstart
    rw [hstart] at hnp
    exact absurd hnp (by simp)
  · rw [if_neg hr, if_pos hnp] at hstart
    by_cases h1 : AUDIO_START_THRESHOLD ≤ getBufferedSamples s ∧ s.streamFinished = false
    · exact Or.inl h1
    · rw [if_neg h1] at hstart
      by_cases h2 : s.streamFinished = true ∧ 0 < getBufferedSamples s
      · exact Or.inr h2
      · rw [if_neg h2] at hstart
        simp only at hstart
        rw [hstart] at hnp
        exact absurd hnp (by simp)

/-- System view of one playback-task iteration: the task reads and writes
only the audio globals; the voice-session statics are not touched. -/
def sysPlaybackStep (bufferReady lockOk : Bool) (currentVolume softwareGain : Nat)
    (sys : SysState) : SysState :=
  { sys with
    audio := (audioPlaybackStep bufferReady lockOk currentVolume softwareGain sys.audio).1 }

set_option maxRecDepth 40000 in
/-- C8: Underrun timeout.  While playing with an empty buffer and the stream
not finished, an iteration only increments the underrun counter and waits
50 ms as long as the count stays within the budget of 100; the iteration
that pushes the count past 100 (the 101st consecutive underrun, about 5
seconds at 50 ms per wait) clears the playing and stream-finished flags,
resets the counter, and silences the output.  Concretely, from a playing
empty state the first 100 iterations keep playing with the counter at 100,
and the 101st aborts.  The playback task never touches the voice-session
state or connection flag, so the abort is not propagated as a session error
or state change. -/
theorem underrun_timeout :
    (∀ (v g : Nat) (lockOk : Bool) (s : AudioState),
      s.bufferPlaying = true → getBufferedSamples s = 0 → s.streamFinished = false →
      s.underrunCount + 1 ≤ 100 →
      audioPlaybackStep true lockOk v g s =
        ({ s with underrunCount := s.underrunCount + 1 }, [HwAction.delayMs 50])) ∧
    (∀ (v g : Nat) (lockOk : Bool) (s : AudioState),
      s.bufferPlaying = true → getBufferedSamples s = 0 → s.streamFinished = false →
      100 < s.underrunCount + 1 →
      audioPlaybackStep true lockOk v g s =
        ({ s with bufferPlaying := false, streamFinished := false, underrunCount := 0 },
         [HwAction.delayMs 50, HwAction.zeroSpeaker])) ∧
    (((fun s => (audioPlaybackStep true true 70 300 s).1)^[100]
        { ringBufferHead := 0, ringBufferTail := 0, ringBuffer := fun _ => 0,
          bufferPlaying := true, streamFinished := false,
          underrunCount := 0 } : AudioState).underrunCount = 100 ∧
     ((fun s => (audioPlaybackStep true true 70 300 s).1)^[100]
        { ringBufferHead := 0, ringBufferTail := 0, ringBuffer := fun _ => 0,
          bufferPlaying := true, streamFinished := false,
          underrunCount := 0 } : AudioState).bufferPlaying = true ∧
     ((fun s => (audioPlaybackStep true true 70 300 s).1)^[101]
        { ringBufferHead := 0, ringBufferTail := 0, ringBuffer := fun _ => 0,
          bufferPlaying := true, streamFinished := false,
          underrunCount := 0 } : AudioState).bufferPlaying = false ∧
     ((fun s => (audioPlaybackStep true true 70 300 s).1)^[101]
        { ringBufferHead := 0, ringBufferTail := 0, ringBuffer := fun _ => 0,
          bufferPlaying := true, streamFinished := false,
          underrunCount := 0 } : AudioState).streamFinished = false ∧
     ((fun s => (audioPlaybackStep true true 70 300 s).1)^[101]
        { ringBufferHead := 0, ringBufferTail := 0, ringBuffer := fun _ => 0,
          bufferPlaying := true, streamFinished := false,
          underrunCount := 0 } : AudioState).underrunCount = 0 ∧
     (audioPlaybackStep true true 70 300
        ((fun s => (audioPlaybackStep true true 70 300 s).1)^[100]
          { ringBufferHead := 0, ringBufferTail := 0, ringBuffer := fun _ => 0,
            bufferPlaying := true, streamFinished := false,
            underrunCount := 0 })).2 =
       [HwAction.delayMs 50, HwAction.zeroSpeaker]) ∧
    (∀ (bufferReady lockOk : Bool) (v g : Nat) (sys : SysState),
      (sysPlaybackStep bufferReady lockOk v g sys).currentVoiceState =
        sys.currentVoiceState ∧
      (sysPlaybackStep bufferReady lockOk v g sys).wsConnected = sys.wsConnected) := by
  refine ⟨?_, ?_, by decide, fun bufferReady lockOk v g sys => ⟨rfl, rfl⟩⟩
  · intro v g lockOk s hp ho hf hc
    rw [audioPlaybackStep_playing v g lockOk s hp]
    unfold playBody
    rw [if_pos ho, if_neg (by rw [hf]; simp), if_neg (by omega)]
  · intro v g lockOk s hp ho hf hc
    rw [audioPlaybackStep_playing v g lockOk s hp]
    unfold playBody
    rw [if_pos ho, if_neg (by rw [hf]; simp), if_pos (by omega)]

/-- C8 witness: the first underrun iteration on a playing empty buffer, and
a system-level iteration, at concrete inputs. -/
theorem underrun_timeout_witness :
    (audioPlaybackStep true true 70 300
        { ringBufferHead := 0, ringBufferTail := 0, ringBuffer := fun _ => 0,
          bufferPlaying := true, streamFinished := false, underrunCount := 0 } =
      ({ ringBufferHead := 0, ringBufferTail := 0, ringBuffer := fun _ => 0,
         bufferPlaying := true, streamFinished := false, underrunCount := 1 },
       [HwAction.delayMs 50])) ∧
    (audioPlaybackStep true true 70 300
        { ringBufferHead := 0, ringBufferTail := 0, ringBuffer := fun _ => 0,
          bufferPlaying := true, streamFinished := false, underrunCount := 100 } =
      ({ ringBufferHead := 0, ringBufferTail := 0, ringBuffer := fun _ => 0,
         bufferPlaying := false, streamFinished := false, underrunCount := 0 },
       [HwAction.delayMs 50, HwAction.zeroSpeaker])) :=
  ⟨underrun_timeout.1 70 300 true _ rfl rfl rfl (by decide),
   underrun_timeout.2.1 70 300 true _ rfl rfl rfl (by decide)⟩

/-- C7 witness: a not-playing finished stream with one buffered sample
satisfies the start-gate converse, and the positive direction applied there
makes the iteration enter playing. -/
theorem start_threshold_buffering_witness :
    ((AUDIO_START_THRESHOLD ≤ getBufferedSamples
        { ringBufferHead := 1, ringBufferTail := 0, ringBuffer := fun _ => 0,
          bufferPlaying := false, streamFinished := true, underrunCount := 0 } ∧
      ({ ringBufferHead := 1, ringBufferTail := 0, ringBuffer := fun _ => 0,
         bufferPlaying := false, streamFinished := true,
         underrunCount := 0 } : AudioState).streamFinished = false) ∨
    (({ ringBufferHead := 1, ringBufferTail := 0, ringBuffer := fun _ => 0,
        bufferPlaying := false, streamFinished := true,
        underrunCount := 0 } : AudioState).streamFinished = true ∧
      0 < getBufferedSamples
        { ringBufferHead := 1, ringBufferTail := 0, ringBuffer := fun _ => 0,
          bufferPlaying := false, streamFinished := true, underrunCount := 0 })) ∧
    (audioPlaybackStep true true 70 300
        { ringBufferHead := 1, ringBufferTail := 0, ringBuffer := fun _ => 0,
          bufferPlaying := false, streamFinished := true,
          underrunCount := 0 }).1.bufferPlaying = true :=
  ⟨start_threshold_buffering.1 true true 70 300 _ rfl (by decide),
   start_threshold_buffering.2.1 true 70 300 _ rfl (Or.inr ⟨rfl, by decide⟩)⟩

/-- C9 counterexample: clearAudioBuffer on an already-empty buffer (cursors
both 5, stream-finished flag set) still clears the stream-finished flag and
resets the cursors, so state other than the occupancy is disturbed. -/
theorem interrupt_empty_disturbs_cex :
    getBufferedSamples
      { ringBufferHead := 5, ringBufferTail := 5, ringBuffer := fun _ => 0,
        bufferPlaying := false, streamFinished := true, underrunCount := 0 } = 0 ∧
    (clearAudioBuffer true
      { ringBufferHead := 5, ringBufferTail := 5, ringBuffer := fun _ => 0,
        bufferPlaying := false, streamFinished := true,
        underrunCount := 0 }).1.streamFinished ≠
      ({ ringBufferHead := 5, ringBufferTail := 5, ringBuffer := fun _ => 0,
         bufferPlaying := false, streamFinished := true,
         underrunCount := 0 } : AudioState).streamFinished :=
  ⟨by decide, by decide⟩

/-- C9 (amended): finishAudioStream is idempotent — calling it twice yields
exactly the state of calling it once; and clearAudioBuffer on an
already-empty buffer leaves it empty (occupancy exactly 0, never negative,
no crash) with the stored samples untouched, while performing its usual
interrupt actions: cursors reset to 0, playing and stream-finished flags
cleared, output silenced. -/
theorem finishStream_idempotent_interrupt_empty :
    (∀ s : AudioState,
      finishAudioStream (finishAudioStream s) = finishAudioStream s) ∧
    (∀ s : AudioState, getBufferedSamples s = 0 →
      getBufferedSamples (clearAudioBuffer true s).1 = 0 ∧
      (clearAudioBuffer true s).1.ringBufferHead = 0 ∧
      (clearAudioBuffer true s).1.ringBufferTail = 0 ∧
      (∀ j, (clearAudioBuffer true s).1.ringBuffer j = s.ringBuffer j) ∧
      (clearAudioBuffer true s).1.bufferPlaying = false ∧
      (clearAudioBuffer true s).1.streamFinished = false ∧
      HwAction.zeroSpeaker ∈ (clearAudioBuffer true s).2) := by
  constructor
  · intro s
    rfl
  · intro s h
    refine ⟨?_, rfl, rfl, fun j => rfl, rfl, rfl, by simp [clearAudioBuffer]⟩
    simp [clearAudioBuffer, getBufferedSamples]

/-- C9 witness: the amended theorem applied at an empty buffer with both
cursors at 7, playing and stream-finished flags set. -/
theorem finishStream_idempotent_interrupt_empty_witness :
    getBufferedSamples (clearAudioBuffer true
      { ringBufferHead := 7, ringBufferTail := 7, ringBuffer := fun _ => 0,
        bufferPlaying := true, streamFinished := true,
        underrunCount := 3 }).1 = 0 ∧
    (clearAudioBuffer true
      { ringBufferHead := 7, ringBufferTail := 7, ringBuffer := fun _ => 0,
        bufferPlaying := true, streamFinished := true,
        underrunCount := 3 }).1.ringBufferHead = 0 ∧
    (clearAudioBuffer true
      { ringBufferHead := 7, ringBufferTail := 7, ringBuffer := fun _ => 0,
        bufferPlaying := true, streamFinished := true,
        underrunCount := 3 }).1.ringBufferTail = 0 ∧
    (∀ j, (clearAudioBuffer true
      { ringBufferHead := 7, ringBufferTail := 7, ringBuffer := fun _ => 0,
        bufferPlaying := true, streamFinished := true,
        underrunCount := 3 }).1.ringBuffer j =
      ({ ringBufferHead := 7, ringBufferTail := 7, ringBuffer := fun _ => 0,
         bufferPlaying := true, streamFinished := true,
         underrunCount := 3 } : AudioState).ringBuffer j) ∧
    (clearAudioBuffer true
      { ringBufferHead := 7, ringBufferTail := 7, ringBuffer := fun _ => 0,
        bufferPlaying := true, streamFinished := true,
        underrunCount := 3 }).1.bufferPlaying = false ∧
    (clearAudioBuffer true
      { ringBufferHead := 7, ringBufferTail := 7, ringBuffer := fun _ => 0,
        bufferPlaying := true, streamFinished := true,
        underrunCount := 3 }).1.streamFinished = false ∧
    HwAction.zeroSpeaker ∈ (clearAudioBuffer true
      { ringBufferHead := 7, ringBufferTail := 7, ringBuffer := fun _ => 0,
        bufferPlaying := true, streamFinished := true,
        underrunCount := 3 }).2 :=
  finishStream_idempotent_interrupt_empty.2 _ (by decide)

/-! Producer failure atomicity. -/

theorem getD_take (xs : List Int) :
    ∀ (n i : Nat), i < n → (xs.take n).getD i 0 = xs.getD i 0 := by
  induction xs with
  | nil =>
      intro n i h
      simp
  | cons x xs ih =>
      intro n i h
      cases n with
      | zero => omega
      | succ n =>
          cases i with
          | zero => rfl
          | succ i => simpa using ih n i (by omega)

/-- C10: queueAudioData atomicity.  When the ring buffer is not initialized
or the 50 ms mutex wait fails, it returns 0 and the buffer state is exactly
the state before the call (cursors, contents and flags unchanged); on
success the returned count is min(requested, free space), the head cursor
advances by exactly that count, everything else is untouched, and the
samples written at the successive head positions are the first
accepted-count input samples in order. -/
theorem queueAudioData_atomicity :
    (∀ (initialized lockOk : Bool) (xs : List Int) (s : AudioState),
      initialized = false ∨ lockOk = false →
      queueAudioData initialized lockOk xs s = (0, s)) ∧
    (∀ (xs : List Int) (s : AudioState),
      s.ringBufferHead < AUDIO_RING_BUFFER_SIZE →
      (queueAudioData true true xs s).1 = min xs.length (getBufferFreeSpace s) ∧
      (queueAudioData true true xs s).2.ringBufferHead =
        (s.ringBufferHead + (queueAudioData true true xs s).1) %
          AUDIO_RING_BUFFER_SIZE ∧
      (queueAudioData true true xs s).2.ringBufferTail = s.ringBufferTail ∧
      (queueAudioData true true xs s).2.bufferPlaying = s.bufferPlaying ∧
      (queueAudioData true true xs s).2.streamFinished = s.streamFinished ∧
      (queueAudioData true true xs s).2.underrunCount = s.underrunCount ∧
      ∀ i, i < (queueAudioData true true xs s).1 →
        (queueAudioData true true xs s).2.ringBuffer
          ((s.ringBufferHead + i) % AUDIO_RING_BUFFER_SIZE) = xs.getD i 0) := by
  constructor
  · intro initialized lockOk xs s h
    unfold queueAudioData
    rcases h with h | h
    · rw [if_pos h]
    · by_cases hi : initialized = false
      · rw [if_pos hi]
      · rw [if_neg hi, if_pos h]
  · intro xs s hh
    have hq : queueAudioData true true xs s =
        (min xs.length (getBufferFreeSpace s),
         writeSamples (xs.take (min xs.length (getBufferFreeSpace s))) s) := by
      unfold queueAudioData
      rw [if_neg (by simp), if_neg (by simp)]
    rw [hq]
    simp only
    have hlen : (xs.take (min xs.length (getBufferFreeSpace s))).length =
        min xs.length (getBufferFreeSpace s) := by
      rw [List.length_take]
      omega
    refine ⟨trivial, ?_, writeSamples_tail _ _, writeSamples_bufferPlaying _ _,
      writeSamples_streamFinished _ _, writeSamples_underrunCount _ _, ?_⟩
    · rw [writeSamples_head _ _ hh, hlen]
    · intro i hi
      have hcap : (xs.take (min xs.length (getBufferFreeSpace s))).length ≤
          AUDIO_RING_BUFFER_SIZE := by
        rw [hlen]
        unfold getBufferFreeSpace
        simp only [AUDIO_RING_BUFFER_SIZE]
        omega
      have := writeSamples_get (xs.take (min xs.length (getBufferFreeSpace s))) s hh
        hcap i (by rw [hlen]; exact hi)
      rw [this, getD_take xs _ i hi]

/-- C10 witness: a failed call (lock timeout) is the identity with count 0,
and a successful call at a concrete input accepts everything. -/
theorem queueAudioData_atomicity_witness :
    (queueAudioData true false [5, 6]
      { ringBufferHead := 3, ringBufferTail := 1, ringBuffer := fun _ => 0,
        bufferPlaying := false, streamFinished := false, underrunCount := 0 } =
      (0, { ringBufferHead := 3, ringBufferTail := 1, ringBuffer := fun _ => 0,
            bufferPlaying := false, streamFinished := false, underrunCount := 0 })) ∧
    ((queueAudioData true true [5, 6] initRingBufferState).1 =
      min ([5, 6] : List Int).length (getBufferFreeSpace initRingBufferState) ∧
     (queueAudioData true true [5, 6] initRingBufferState).2.ringBufferHead =
       (initRingBufferState.ringBufferHead +
         (queueAudioData true true [5, 6] initRingBufferState).1) %
           AUDIO_RING_BUFFER_SIZE ∧
     (queueAudioData true true [5, 6] initRingBufferState).2.ringBufferTail =
       initRingBufferState.ringBufferTail ∧
     (queueAudioData true true [5, 6] initRingBufferState).2.bufferPlaying =
       initRingBufferState.bufferPlaying ∧
     (queueAudioData true true [5, 6] initRingBufferState).2.streamFinished =
       initRingBufferState.streamFinished ∧
     (queueAudioData true true [5, 6] initRingBufferState).2.underrunCount =
       initRingBufferState.underrunCount ∧
     ∀ i, i < (queueAudioData true true [5, 6] initRingBufferState).1 →
       (queueAudioData true true [5, 6] initRingBufferState).2.ringBuffer
         ((initRingBufferState.ringBufferHead + i) % AUDIO_RING_BUFFER_SIZE) =
         ([5, 6] : List Int).getD i 0) :=
  ⟨queueAudioData_atomicity.1 true false [5, 6] _ (Or.inr rfl),
   queueAudioData_atomicity.2 [5, 6] initRingBufferState (by decide)⟩

end Mote
